import Mathlib

/- Shallow embedding of the core of the spiel voice-dictation app:
   the VAD (voice-activity-detection) processor and segment assembler
   (src/services/vadProcessor.ts, bundled in src/stores/appStore.ts),
   the transcript accumulator (appendTranscript in src/stores/appStore.ts),
   the uiohook double-press hotkey detector (electron/services/hotkeyManager.ts,
   uiohook variant), and the session coordinator
   (src/windows/RecordingBar.tsx together with src/hooks/useTranscription.ts).

   Conventions: JS numbers holding millisecond timestamps are embedded as Int
   (Date.now() values; JS subtraction is Int subtraction), amplitudes as ℚ,
   strings as Lean String (a wrapped List Char).  An encoded audio chunk
   (a MediaRecorder Blob) is opaque: it is embedded as a Nat identifier, and
   JS reference equality (===) on chunk objects becomes equality of
   identifiers; a Blob built from a chunk list is embedded as that list. -/

/-- Opaque identifier of one encoded audio chunk (a MediaRecorder Blob). -/
abbrev Chunk := Nat

/-- VADConfig from vadProcessor.ts. -/
structure VADConfig where
  silenceDuration : Int
  minSpeechDuration : Int
  silenceThreshold : ℚ
  sampleRate : Int
  deriving Repr, DecidableEq

/-- DEFAULT_CONFIG from vadProcessor.ts. -/
def DEFAULT_CONFIG : VADConfig :=
  { silenceDuration := 900, minSpeechDuration := 500,
    silenceThreshold := 1 / 100, sampleRate := 16000 }

/-- The mutable fields of class VADProcessor that the detector logic touches. -/
structure VADState where
  isSpeaking : Bool
  silenceStartTime : Int
  speechStartTime : Int
  audioChunks : List Chunk
  headerChunk : Option Chunk
  deriving Repr, DecidableEq

/-- Field initializers of class VADProcessor. -/
def initVADState : VADState :=
  { isSpeaking := false, silenceStartTime := 0, speechStartTime := 0,
    audioChunks := [], headerChunk := none }

/-- The VADEvents callbacks that carry speech boundaries (onWaveformData is
visualization only and is not modelled). -/
inductive VADEvent where
  | speechStart : VADEvent
  | speechEnd : List Chunk → VADEvent
  deriving Repr, DecidableEq

/-- VADProcessor.processAudioChunk: the first chunk ever received is saved as
the header chunk; every chunk is pushed onto audioChunks. -/
def processAudioChunk (s : VADState) (c : Chunk) : VADState :=
  let s1 := if s.headerChunk = none then { s with headerChunk := some c } else s
  { s1 with audioChunks := s1.audioChunks ++ [c] }

/-- VADProcessor.resetState: clears everything except the header chunk. -/
def resetState (s : VADState) : VADState :=
  { s with isSpeaking := false, silenceStartTime := 0, speechStartTime := 0,
           audioChunks := [] }

/-- VADProcessor.completeSpeechSegment: if the buffer is non-empty, emit the
blob (the buffered chunks, with the header chunk prepended when the buffer
does not already start with it); then reset the per-segment state.  The
returned Option is the argument of the onSpeechEnd callback, if called. -/
def completeSpeechSegment (s : VADState) : VADState × Option (List Chunk) :=
  (resetState s,
    if 0 < s.audioChunks.length then
      match s.headerChunk with
      | some h =>
          if s.audioChunks.head? ≠ some h then some (h :: s.audioChunks)
          else some s.audioChunks
      | none => some s.audioChunks
    else none)

/-- VADProcessor.calculateAmplitude: mean absolute normalized amplitude of a
byte array (values 0..255 mapped to -1..1).  The empty-array case (0/0,
NaN in JS) is never fed by the caller. -/
def calculateAmplitude (audioData : List Nat) : ℚ :=
  (audioData.map (fun x => |((x : ℚ) - 128) / 128|)).sum / audioData.length

/-- The body of VADProcessor.analyzeAudioLevel after the amplitude has been
computed: one step of the endpoint detector on a frame with the given scalar
amplitude at time `now` (Date.now() at the call). -/
def vadStep (cfg : VADConfig) (s : VADState) (amplitude : ℚ) (now : Int) :
    VADState × List VADEvent :=
  if s.isSpeaking = false ∧ ¬ amplitude < cfg.silenceThreshold then
    ({ s with isSpeaking := true, speechStartTime := now, silenceStartTime := 0,
              audioChunks := [] },
      [VADEvent.speechStart])
  else if s.isSpeaking = true then
    if amplitude < cfg.silenceThreshold then
      if s.silenceStartTime = 0 then
        ({ s with silenceStartTime := now }, [])
      else if cfg.silenceDuration ≤ now - s.silenceStartTime then
        if cfg.minSpeechDuration ≤ s.silenceStartTime - s.speechStartTime then
          ((completeSpeechSegment s).1,
            ((completeSpeechSegment s).2.map VADEvent.speechEnd).toList)
        else (resetState s, [])
      else (s, [])
    else ({ s with silenceStartTime := 0 }, [])
  else (s, [])

/-- VADProcessor.analyzeAudioLevel on a raw byte frame. -/
def analyzeAudioLevel (cfg : VADConfig) (s : VADState) (audioData : List Nat)
    (now : Int) : VADState × List VADEvent :=
  vadStep cfg s (calculateAmplitude audioData) now

/-- VADProcessor.forceComplete: flush the segment only when speaking with a
non-empty buffer and elapsed speech of at least minSpeechDuration; resetState
runs unconditionally afterwards. -/
def forceComplete (cfg : VADConfig) (s : VADState) (now : Int) :
    VADState × Option (List Chunk) :=
  let r : VADState × Option (List Chunk) :=
    if s.isSpeaking = true ∧ 0 < s.audioChunks.length then
      if cfg.minSpeechDuration ≤ now - s.speechStartTime then
        completeSpeechSegment s
      else (s, none)
    else (s, none)
  (resetState r.1, r.2)

/-- One input to the VAD processor: a frame (already reduced to its scalar
amplitude, with its Date.now() timestamp) handed to analyzeAudioLevel, or an
encoded chunk handed to processAudioChunk. -/
inductive VInput where
  | frame : ℚ → Int → VInput
  | chunk : Chunk → VInput
  deriving Repr, DecidableEq

/-- Run the VAD processor over a sequence of inputs, collecting the emitted
boundary events in order. -/
def vadRun (cfg : VADConfig) : VADState → List VInput → VADState × List VADEvent
  | s, [] => (s, [])
  | s, VInput.frame a now :: rest =>
      let r := vadStep cfg s a now
      let r2 := vadRun cfg r.1 rest
      (r2.1, r.2 ++ r2.2)
  | s, VInput.chunk c :: rest => vadRun cfg (processAudioChunk s c) rest

/-- The first chunk occurring in an input sequence, if any. -/
def firstChunk : List VInput → Option Chunk
  | [] => none
  | VInput.frame _ _ :: rest => firstChunk rest
  | VInput.chunk c :: _ => some c

/-- The whitespace characters relevant to the JS trimEnd / trim calls
(ASCII subset; the transcripts at issue contain only spaces and newlines). -/
def jsWhitespaceChar (c : Char) : Bool :=
  c == ' ' || c == '\t' || c == '\n' || c == '\r' ||
    c == '\x0b' || c == '\x0c'

/-- JS String.prototype.trimEnd on the character list of a string. -/
def trimEndChars (l : List Char) : List Char :=
  (l.reverse.dropWhile jsWhitespaceChar).reverse

/-- JS String.prototype.trim (both ends). -/
def trimChars (l : List Char) : List Char :=
  (trimEndChars l).dropWhile jsWhitespaceChar

/-- JS text.replace of the pattern "one or more newlines at the end" with the
empty string: drop every trailing newline. -/
def dropTrailingNewlines (l : List Char) : List Char :=
  (l.reverse.dropWhile (fun c => c == '\n')).reverse

/-- appendTranscript from src/stores/appStore.ts: the explicit-newline marker
trims trailing whitespace and appends a newline; any other fragment has its
trailing newlines stripped and is appended, with a single separating space
when the buffer is non-empty and does not end in a newline. -/
def appendTranscript (transcript text : String) : String :=
  if text.data = ['\n'] then
    ⟨trimEndChars transcript.data ++ ['\n']⟩
  else
    let cleanText := dropTrailingNewlines text.data
    ⟨transcript.data ++
      (if transcript.data ≠ [] ∧ transcript.data.getLast? ≠ some '\n' then [' ']
       else []) ++ cleanText⟩

/-- JS s.trim() as a String operation. -/
def jsTrim (s : String) : String := ⟨trimChars s.data⟩

/-- Key code constants of the uiohook-napi library (external; only their
distinctness matters to the detector). -/
def uiohookKeyCtrl : Nat := 29

/-- UiohookKey.CtrlRight. -/
def uiohookKeyCtrlRight : Nat := 3613

/-- UiohookKey.F5. -/
def uiohookKeyF5 : Nat := 63

/-- The hotkeyMode setting. -/
inductive HotkeyMode where
  | doubleTapControl | f5 | custom
  deriving Repr, DecidableEq

/-- The last-press timestamps kept by class HotkeyManager. -/
structure HotkeyState where
  lastControlPress : Int
  lastF5Press : Int
  deriving Repr, DecidableEq

/-- Field initializers of class HotkeyManager (both timestamps 0). -/
def initHotkeyState : HotkeyState := { lastControlPress := 0, lastF5Press := 0 }

/-- The keydown listener installed by HotkeyManager.setupUiohook: one key
event with its code at time `now` (Date.now()); returns the new state and
whether triggerRecording fired. -/
def uiohookKeydown (mode : HotkeyMode) (threshold : Int) (st : HotkeyState)
    (keycode : Nat) (now : Int) : HotkeyState × Bool :=
  match mode with
  | HotkeyMode.doubleTapControl =>
      if keycode = uiohookKeyCtrl ∨ keycode = uiohookKeyCtrlRight then
        if now - st.lastControlPress < threshold then
          ({ st with lastControlPress := 0 }, true)
        else
          ({ st with lastControlPress := now }, false)
      else (st, false)
  | HotkeyMode.f5 =>
      if keycode = uiohookKeyF5 then
        if now - st.lastF5Press < threshold then
          ({ st with lastF5Press := 0 }, true)
        else
          ({ st with lastF5Press := now }, false)
      else (st, false)
  | HotkeyMode.custom => (st, false)

/-- Run the keydown listener over a sequence of (keycode, timestamp) events,
collecting the timestamps at which a trigger fired. -/
def uiohookRun (mode : HotkeyMode) (threshold : Int) :
    HotkeyState → List (Nat × Int) → HotkeyState × List Int
  | st, [] => (st, [])
  | st, (kc, now) :: rest =>
      let r := uiohookKeydown mode threshold st kc now
      let r2 := uiohookRun mode threshold r.1 rest
      (r2.1, (if r.2 then [now] else []) ++ r2.2)

/-- The renderer recordingState values. -/
inductive RecState where
  | idle | recording | processing | error
  deriving Repr, DecidableEq

/-- The session-coordinator state spread over RecordingBar.tsx (pendingStopRef,
processingCountRef, the recorder flag) and the app store (recordingState,
transcript).  finalizeCount instruments how many times the finalize handoff
(window.electronAPI.stopRecordingAndInsert) has been invoked. -/
structure Coord where
  recordingState : RecState
  transcript : String
  isRecording : Bool
  pendingStop : Bool
  processingCount : Int
  finalizeCount : Nat
  deriving Repr, DecidableEq

/-- Initial coordinator state. -/
def initCoord : Coord :=
  { recordingState := RecState.idle, transcript := "", isRecording := false,
    pendingStop := false, processingCount := 0, finalizeCount := 0 }

/-- How one transcription call settles: a result carrying text, a result
carrying an error, or a thrown exception. -/
inductive SettleOutcome where
  | ok : String → SettleOutcome
  | errorResult : SettleOutcome
  | exn : SettleOutcome
  deriving Repr, DecidableEq

/-- The finalize handoff: stopRecordingAndInsert(transcript.trim()) followed
by clearTranscript() when insertion reports success.  `insertOk` is the
external insertion collaborator's verdict. -/
def coordFinalize (c : Coord) (insertOk : Bool) : Coord :=
  let c1 := { c with finalizeCount := c.finalizeCount + 1 }
  if insertOk then { c1 with transcript := "" } else c1

/-- Entry of processAudioChunkTracked for one speech segment: the counter is
incremented, and the inner processAudioChunk synchronously sets
recordingState to processing before its first await. -/
def coordDispatch (c : Coord) : Coord :=
  { c with processingCount := c.processingCount + 1,
           recordingState := RecState.processing }

/-- Settlement of one tracked transcription call: on a successful result with
non-empty text the text is appended (useTranscription.processAudioChunk); an
error result or a thrown exception appends nothing; the inner finally sets
recordingState back to recording; the outer finally (processAudioChunkTracked)
decrements the counter and, when a stop is pending and the counter reached 0,
clears the pending-stop flag and runs the finalize handoff. -/
def coordSettle (c : Coord) (oc : SettleOutcome) (insertOk : Bool) : Coord :=
  let c1 :=
    match oc with
    | SettleOutcome.ok t =>
        if t.data ≠ [] then { c with transcript := appendTranscript c.transcript t }
        else c
    | SettleOutcome.errorResult => c
    | SettleOutcome.exn => c
  let c2 := { c1 with recordingState := RecState.recording,
                      processingCount := c1.processingCount - 1 }
  if c2.pendingStop = true ∧ c2.processingCount = 0 then
    coordFinalize { c2 with pendingStop := false } insertOk
  else c2

/-- handleToggleRecording from RecordingBar.tsx.  On stop: the recorder is
stopped at once; with pending operations the state shows processing and the
stop is deferred via the pending-stop flag; with none the state goes idle and
finalize runs immediately.  On start: startRecording is awaited (`startOk`
is its verdict), then the state shows recording and the transcript is
cleared; a failed start sets the error state. -/
def coordToggle (c : Coord) (insertOk startOk : Bool) : Coord :=
  if c.isRecording = true then
    let c1 := { c with isRecording := false }
    if 0 < c1.processingCount then
      { c1 with recordingState := RecState.processing, pendingStop := true }
    else
      coordFinalize { c1 with recordingState := RecState.idle } insertOk
  else
    if startOk then
      { c with isRecording := true, recordingState := RecState.recording,
               transcript := "" }
    else
      { c with recordingState := RecState.error }

/-- Settle a list of outstanding calls in order (each with its outcome and
the insertion verdict finalize would see). -/
def coordSettleList : Coord → List (SettleOutcome × Bool) → Coord
  | c, [] => c
  | c, (oc, io) :: rest => coordSettleList (coordSettle c oc io) rest

/-- The header chunk a VAD run ends with: an already-captured header is kept,
otherwise the first chunk of the input sequence is captured. -/
def headerAfter (o : Option Chunk) (evs : List VInput) : Option Chunk :=
  match o with
  | some h => some h
  | none => firstChunk evs

/-- completeSpeechSegment calls onSpeechEnd exactly when the chunk buffer is
non-empty. -/
theorem completeSpeechSegment_isSome (s : VADState) :
    (completeSpeechSegment s).2.isSome ↔ s.audioChunks ≠ [] := by
  unfold completeSpeechSegment
  split_ifs with h
  · cases hh : s.headerChunk
    · simp_all [List.length_pos]
    · dsimp only
      split_ifs <;> simp_all [List.length_pos]
  · simp_all [List.length_pos]

/-- A blob emitted by completeSpeechSegment is never the empty chunk list. -/
theorem completeSpeechSegment_ne_nil (s : VADState) (b : List Chunk)
    (hb : (completeSpeechSegment s).2 = some b) : b ≠ [] := by
  unfold completeSpeechSegment at hb
  split_ifs at hb with h
  · cases hh : s.headerChunk <;> rw [hh] at hb <;> dsimp only at hb
    · simp only [Option.some.injEq] at hb
      subst hb
      simpa [List.length_pos] using h
    · split_ifs at hb <;> simp only [Option.some.injEq] at hb <;> subst hb <;>
        simp_all [List.length_pos]

/-- completeSpeechSegment leaves the header chunk untouched. -/
theorem completeSpeechSegment_headerChunk (s : VADState) :
    (completeSpeechSegment s).1.headerChunk = s.headerChunk := rfl

/-- One detector step leaves the header chunk untouched. -/
theorem vadStep_headerChunk (cfg : VADConfig) (s : VADState) (a : ℚ) (now : Int) :
    ((vadStep cfg s a now).1).headerChunk = s.headerChunk := by
  unfold vadStep
  split_ifs <;> simp [completeSpeechSegment, resetState]

/-- Over any input sequence, the header chunk ends as headerAfter prescribes:
kept if already captured, else the first chunk of the sequence. -/
theorem vadRun_headerChunk (cfg : VADConfig) :
    ∀ (evs : List VInput) (s : VADState),
      ((vadRun cfg s evs).1).headerChunk = headerAfter s.headerChunk evs := by
  intro evs
  induction evs with
  | nil =>
      intro s
      cases hh : s.headerChunk <;> simp [vadRun, firstChunk, headerAfter, hh]
  | cons e rest ih =>
      intro s
      cases e with
      | frame a now =>
          simp only [vadRun]
          rw [ih]
          have hv := vadStep_headerChunk cfg s a now
          cases hh : s.headerChunk <;> rw [hh] at hv <;>
            simp [hv, firstChunk, headerAfter]
      | chunk c =>
          simp only [vadRun]
          rw [ih]
          cases hh : s.headerChunk <;>
            simp [processAudioChunk, hh, firstChunk, headerAfter]

/-- C1 (counterexample): a frame sequence on which the detector enters
Speaking at t=0, sees silence from t=600, and reaches the 900ms silence
timeout at t=1500 with a speech duration of 600ms ≥ 500ms — every condition
of the claimed iff holds — yet no SpeechEnd is emitted, because no chunk was
ever buffered; so the claimed "if and only if" is false as stated. -/
theorem c1_counterexample :
    (vadRun DEFAULT_CONFIG initVADState
      [VInput.frame (1/2) 0, VInput.frame 0 600, VInput.frame 0 1500]).2 =
        [VADEvent.speechStart] ∧
    DEFAULT_CONFIG.minSpeechDuration ≤ (600 : Int) - 0 ∧
    DEFAULT_CONFIG.silenceDuration ≤ (1500 : Int) - 600 := by
  refine ⟨?_, by norm_num [DEFAULT_CONFIG], by norm_num [DEFAULT_CONFIG]⟩
  norm_num [vadRun, vadStep, DEFAULT_CONFIG, initVADState, completeSpeechSegment,
    resetState]

/-- C1 (amended): at every detector step, a SpeechEnd is emitted iff the
detector is Speaking, the frame is silent, a silence run is already under way
(silenceStartTime ≠ 0), the silence run has lasted at least silenceDurationMs,
the speech duration silenceStart - speechStart is at least minSpeechDurationMs,
AND the chunk buffer is non-empty; moreover, whenever the silence timeout is
reached, the state returns to Silent with an empty buffer whether or not a
segment was emitted. -/
theorem c1_speechEnd_iff :
    ∀ (cfg : VADConfig) (s : VADState) (a : ℚ) (now : Int),
      ((∃ b, VADEvent.speechEnd b ∈ (vadStep cfg s a now).2) ↔
        (s.isSpeaking = true ∧ a < cfg.silenceThreshold ∧ s.silenceStartTime ≠ 0 ∧
          cfg.silenceDuration ≤ now - s.silenceStartTime ∧
          cfg.minSpeechDuration ≤ s.silenceStartTime - s.speechStartTime ∧
          s.audioChunks ≠ [])) ∧
      (s.isSpeaking = true → a < cfg.silenceThreshold → s.silenceStartTime ≠ 0 →
        cfg.silenceDuration ≤ now - s.silenceStartTime →
        (vadStep cfg s a now).1.isSpeaking = false ∧
        (vadStep cfg s a now).1.audioChunks = []) := by
  intro cfg s a now
  constructor
  · have hiso := completeSpeechSegment_isSome s
    unfold vadStep
    split_ifs with h1 h2 h3 h4 h5 h6 <;> try (simp_all; done)
    rcases hc : (completeSpeechSegment s).2 with _ | b <;>
      rw [hc] at hiso <;> simp at hiso <;> simp_all
  · intro hsp hsil hnz hdur
    unfold vadStep
    split_ifs <;> simp_all [completeSpeechSegment, resetState]

/-- C1 (witness): the amended step theorem applied at a concrete Speaking
state whose silence timeout has elapsed. -/
theorem c1_witness :
    (vadStep DEFAULT_CONFIG
        { isSpeaking := true, silenceStartTime := 600, speechStartTime := 0,
          audioChunks := [1], headerChunk := some 1 } 0 1500).1.isSpeaking = false ∧
    (vadStep DEFAULT_CONFIG
        { isSpeaking := true, silenceStartTime := 600, speechStartTime := 0,
          audioChunks := [1], headerChunk := some 1 } 0 1500).1.audioChunks = [] :=
  (c1_speechEnd_iff DEFAULT_CONFIG
      { isSpeaking := true, silenceStartTime := 600, speechStartTime := 0,
        audioChunks := [1], headerChunk := some 1 } 0 1500).2 rfl
    (by norm_num [DEFAULT_CONFIG]) (by decide) (by norm_num [DEFAULT_CONFIG])

/-- C3: every emitted blob is the buffered chunk list with the session header
prepended when the list does not already start with it. -/
theorem c3_segment_blob :
    ∀ (s : VADState) (hd : Chunk), s.headerChunk = some hd → s.audioChunks ≠ [] →
      (completeSpeechSegment s).2 =
        some (if s.audioChunks.head? = some hd then s.audioChunks
              else hd :: s.audioChunks) := by
  intro s hd hh hne
  unfold completeSpeechSegment
  rw [hh, if_pos (List.length_pos.mpr hne)]
  dsimp only
  split_ifs with hhead <;> simp_all

/-- C3 (witness): a session receiving chunks header=0, 1, 2 emits [0,1,2] for
the first segment, and after receiving 3, 4 emits [0,3,4] for the second —
the header is re-prepended although absent from the second raw list. -/
theorem c3_witness :
    (completeSpeechSegment
        (processAudioChunk (processAudioChunk (processAudioChunk initVADState 0) 1)
          2)).2 = some [0, 1, 2] ∧
    (completeSpeechSegment
        (processAudioChunk
          (processAudioChunk
            (completeSpeechSegment
              (processAudioChunk (processAudioChunk (processAudioChunk initVADState 0)
                1) 2)).1 3) 4)).2 = some [0, 3, 4] :=
  ⟨(c3_segment_blob _ 0 (by decide) (by decide)).trans (by decide),
   (c3_segment_blob _ 0 (by decide) (by decide)).trans (by decide)⟩

/-- C4: the header chunk is captured exactly once per session — it becomes the
first chunk ever received and no later chunk overwrites it — and no reset path
(resetState, completeSpeechSegment, forceComplete, any analyze step) clears
it; over any input sequence from a fresh state the final header chunk is
exactly the first chunk of the sequence. -/
theorem c4_header_captured_once :
    (∀ (s : VADState) (c : Chunk), s.headerChunk = none →
        (processAudioChunk s c).headerChunk = some c) ∧
    (∀ (s : VADState) (c hd : Chunk), s.headerChunk = some hd →
        (processAudioChunk s c).headerChunk = some hd) ∧
    (∀ s : VADState, (resetState s).headerChunk = s.headerChunk) ∧
    (∀ s : VADState, (completeSpeechSegment s).1.headerChunk = s.headerChunk) ∧
    (∀ (cfg : VADConfig) (s : VADState) (now : Int),
        (forceComplete cfg s now).1.headerChunk = s.headerChunk) ∧
    (∀ (cfg : VADConfig) (s : VADState) (a : ℚ) (now : Int),
        (vadStep cfg s a now).1.headerChunk = s.headerChunk) ∧
    (∀ (cfg : VADConfig) (evs : List VInput),
        ((vadRun cfg initVADState evs).1).headerChunk = firstChunk evs) := by
  refine ⟨?_, ?_, fun s => rfl, completeSpeechSegment_headerChunk, ?_,
    vadStep_headerChunk, ?_⟩
  · intro s c h
    simp [processAudioChunk, h]
  · intro s c hd h
    simp [processAudioChunk, h]
  · intro cfg s now
    unfold forceComplete
    split_ifs <;> simp [completeSpeechSegment, resetState]
  · intro cfg evs
    rw [vadRun_headerChunk]
    rfl

/-- C4 (witness): the capture and no-overwrite conjuncts at concrete states. -/
theorem c4_witness :
    (processAudioChunk initVADState 7).headerChunk = some 7 ∧
    (processAudioChunk
        { isSpeaking := true, silenceStartTime := 0, speechStartTime := 0,
          audioChunks := [7], headerChunk := some 7 } 8).headerChunk = some 7 :=
  ⟨c4_header_captured_once.1 initVADState 7 rfl,
   c4_header_captured_once.2.1 _ 8 7 rfl⟩

/-- C5: forceComplete emits a segment iff it runs in the Speaking state with a
non-empty chunk buffer and elapsed speech now - speechStart of at least
minSpeechDurationMs; in every case (including when already Silent) the
resulting state is Silent with an empty buffer. -/
theorem c5_forceComplete :
    ∀ (cfg : VADConfig) (s : VADState) (now : Int),
      ((forceComplete cfg s now).2.isSome ↔
        (s.isSpeaking = true ∧ s.audioChunks ≠ [] ∧
          cfg.minSpeechDuration ≤ now - s.speechStartTime)) ∧
      (forceComplete cfg s now).1.isSpeaking = false ∧
      (forceComplete cfg s now).1.audioChunks = [] := by
  intro cfg s now
  unfold forceComplete
  split_ifs with h1 h2
  · simpa [completeSpeechSegment, resetState, List.length_pos, h1.1, h2]
      using completeSpeechSegment_isSome s
  · simp_all [resetState, List.length_pos]
  · simp_all [resetState, List.length_pos]

/-- C8: a segment is never emitted empty — an empty buffer at completion time
emits nothing, and every blob handed to onSpeechEnd (via normal completion,
forced completion, or a detector step) contains at least one chunk. -/
theorem c8_no_empty_segment :
    (∀ s : VADState, s.audioChunks = [] → (completeSpeechSegment s).2 = none) ∧
    (∀ (s : VADState) (b : List Chunk),
      (completeSpeechSegment s).2 = some b → b ≠ []) ∧
    (∀ (cfg : VADConfig) (s : VADState) (now : Int) (b : List Chunk),
      (forceComplete cfg s now).2 = some b → b ≠ []) ∧
    (∀ (cfg : VADConfig) (s : VADState) (a : ℚ) (now : Int) (b : List Chunk),
      VADEvent.speechEnd b ∈ (vadStep cfg s a now).2 → b ≠ []) := by
  refine ⟨?_, completeSpeechSegment_ne_nil, ?_, ?_⟩
  · intro s h
    unfold completeSpeechSegment
    simp [h]
  · intro cfg s now b hb
    unfold forceComplete at hb
    split_ifs at hb
    exact completeSpeechSegment_ne_nil s b hb
  · intro cfg s a now b hmem
    unfold vadStep at hmem
    split_ifs at hmem <;> simp_all
    exact completeSpeechSegment_ne_nil s b hmem

/-- C8 (witness): an empty buffer emits nothing; a concrete emitted blob is
non-empty. -/
theorem c8_witness :
    (completeSpeechSegment
        { isSpeaking := true, silenceStartTime := 0, speechStartTime := 0,
          audioChunks := [], headerChunk := some 0 }).2 = none ∧
    ([0, 5] : List Chunk) ≠ [] :=
  ⟨c8_no_empty_segment.1 _ rfl,
   c8_no_empty_segment.2.1
     { isSpeaking := true, silenceStartTime := 0, speechStartTime := 0,
       audioChunks := [5], headerChunk := some 0 } [0, 5] (by decide)⟩

/-- C6 (counterexample): appending the fragment "hello " to an empty buffer
yields "hello " — the trailing space is kept, because the code strips only
trailing newlines — so the claimed trace value "hello" is wrong. -/
theorem c6_counterexample :
    appendTranscript "" "hello " = "hello " ∧ ("hello " : String) ≠ "hello" := by
  decide

/-- C6 (amended): the actual trace — only trailing newlines are stripped from
fragments, so "hello " keeps its space and the separating space then produces
a double space: "" +"hello " = "hello "; +"world\n" = "hello  world";
+marker = "hello  world\n"; +"next" = "hello  world\nnext". -/
theorem c6_transcript_trace :
    appendTranscript "" "hello " = "hello " ∧
    appendTranscript "hello " "world\n" = "hello  world" ∧
    appendTranscript "hello  world" "\n" = "hello  world\n" ∧
    appendTranscript "hello  world\n" "next" = "hello  world\nnext" := by
  decide

/-- dropWhile is idempotent. -/
theorem dropWhile_dropWhile {α : Type} (p : α → Bool) (l : List α) :
    (l.dropWhile p).dropWhile p = l.dropWhile p := by
  induction l with
  | nil => rfl
  | cons c l ih => by_cases h : p c <;> simp [List.dropWhile_cons, h, ih]

/-- Trimming after appending a newline to a trimmed list gives the trimmed
list back. -/
theorem trimEndChars_append_newline (l : List Char) :
    trimEndChars (trimEndChars l ++ ['\n']) = trimEndChars l := by
  unfold trimEndChars
  rw [List.reverse_append, List.reverse_reverse]
  simp [List.dropWhile_cons, jsWhitespaceChar, dropWhile_dropWhile]

/-- C10 (counterexample): the buffer "a \n" ends in exactly one newline, yet
the newline-marker append maps it to "a\n" ≠ "a \n" (the space before the
newline is trimmed away), so "a buffer already ending in exactly one newline
is mapped to itself" is false as stated. -/
theorem c10_counterexample :
    ("a \n" : String).data.getLast? = some '\n' ∧
    ("a " : String).data.getLast? ≠ some '\n' ∧
    appendTranscript "a \n" "\n" ≠ "a \n" := by
  decide

/-- C10 (amended): appending the explicit-newline marker is idempotent for
every buffer; and a buffer whose trailing whitespace consists of exactly one
newline — i.e. one equal to its own trimmed form plus a newline — is mapped
to itself. -/
theorem c10_marker_idempotent :
    (∀ b : String, appendTranscript (appendTranscript b "\n") "\n" =
        appendTranscript b "\n") ∧
    (∀ b : String, b.data = trimEndChars b.data ++ ['\n'] →
        appendTranscript b "\n" = b) := by
  have hm : ("\n" : String).data = ['\n'] := rfl
  constructor
  · intro b
    unfold appendTranscript
    rw [if_pos hm, if_pos hm]
    exact congrArg String.mk
      (congrArg (fun l => l ++ ['\n']) (trimEndChars_append_newline b.data))
  · intro b hb
    unfold appendTranscript
    rw [if_pos hm]
    exact (congrArg String.mk hb.symm).trans rfl

/-- C10 (witness): the fixed-point conjunct applied at "a\n". -/
theorem c10_witness : appendTranscript "a\n" "\n" = "a\n" :=
  c10_marker_idempotent.2 "a\n" (by decide)

/-- C7 (counterexample): from the initial state (lastPress = 0), presses at
the literal times t=0 and t=250 with threshold 300 fire TWO triggers — the
first press already satisfies 0 - 0 < 300 against the zero sentinel — not the
single trigger at t=250 the claim states. -/
theorem c7_counterexample :
    (uiohookRun HotkeyMode.doubleTapControl 300 initHotkeyState
      [(uiohookKeyCtrl, 0), (uiohookKeyCtrl, 250)]).2 = [0, 250] := by
  decide

/-- C7 (amended): for a first press at any time t0 at least threshold=300
after the initial zero sentinel, presses at t0 and t0+250 fire exactly one
trigger, at the second press, and reset lastPress to 0 so that a third press
at t0+280 (inside the original window) does not re-fire; presses at t0 and
t0+400 fire zero triggers and leave lastPress = t0+400. -/
theorem c7_double_press :
    ∀ t0 : Int, 300 ≤ t0 →
      ((uiohookRun HotkeyMode.doubleTapControl 300 initHotkeyState
          [(uiohookKeyCtrl, t0), (uiohookKeyCtrl, t0 + 250)]).2 = [t0 + 250] ∧
       (uiohookRun HotkeyMode.doubleTapControl 300 initHotkeyState
          [(uiohookKeyCtrl, t0), (uiohookKeyCtrl, t0 + 250)]).1.lastControlPress
         = 0) ∧
      (uiohookRun HotkeyMode.doubleTapControl 300 initHotkeyState
          [(uiohookKeyCtrl, t0), (uiohookKeyCtrl, t0 + 250),
            (uiohookKeyCtrl, t0 + 280)]).2 = [t0 + 250] ∧
      ((uiohookRun HotkeyMode.doubleTapControl 300 initHotkeyState
          [(uiohookKeyCtrl, t0), (uiohookKeyCtrl, t0 + 400)]).2 = [] ∧
       (uiohookRun HotkeyMode.doubleTapControl 300 initHotkeyState
          [(uiohookKeyCtrl, t0), (uiohookKeyCtrl, t0 + 400)]).1.lastControlPress
         = t0 + 400) := by
  intro t0 ht
  simp only [uiohookRun, uiohookKeydown, initHotkeyState]
  norm_num
  split_ifs <;> simp_all <;> omega

/-- C7 (witness): the amended theorem at t0 = 300. -/
theorem c7_witness :
    (uiohookRun HotkeyMode.doubleTapControl 300 initHotkeyState
      [(uiohookKeyCtrl, 300), (uiohookKeyCtrl, 550)]).2 = [550] := by
  have h := (c7_double_press 300 (by norm_num)).1.1
  norm_num at h
  exact h

/-- Bookkeeping facts about one settlement: the counter always drops by one;
with a pending stop and the counter reaching zero, the finalize handoff runs
and the pending-stop flag is cleared in the same step; otherwise the
finalize count and flag are untouched and the state shows recording. -/
theorem coordSettle_spec (c : Coord) (oc : SettleOutcome) (io : Bool) :
    (coordSettle c oc io).processingCount = c.processingCount - 1 ∧
    ((c.pendingStop = true ∧ c.processingCount - 1 = 0) →
      (coordSettle c oc io).finalizeCount = c.finalizeCount + 1 ∧
      (coordSettle c oc io).pendingStop = false) ∧
    (¬(c.pendingStop = true ∧ c.processingCount - 1 = 0) →
      (coordSettle c oc io).finalizeCount = c.finalizeCount ∧
      (coordSettle c oc io).pendingStop = c.pendingStop ∧
      (coordSettle c oc io).recordingState = RecState.recording) := by
  unfold coordSettle coordFinalize
  rcases oc with t | _ | _ <;> dsimp only <;> split_ifs <;> simp_all

/-- With a pending stop and exactly as many queued settlements as the counter
records, finalize runs exactly once, at the last settlement — after every
outstanding call has settled — and on no proper prefix; the flag ends
cleared. -/
theorem coordSettleList_deferred (rs : List (SettleOutcome × Bool)) :
    ∀ c : Coord, c.pendingStop = true → c.processingCount = rs.length →
      (rs ≠ [] → (coordSettleList c rs).finalizeCount = c.finalizeCount + 1 ∧
        (coordSettleList c rs).pendingStop = false) ∧
      (∀ pre suf, rs = pre ++ suf → suf ≠ [] →
        (coordSettleList c pre).finalizeCount = c.finalizeCount) := by
  induction rs with
  | nil =>
      intro c hps hcnt
      refine ⟨fun h => absurd rfl h, ?_⟩
      intro pre suf happ hsuf
      rcases List.append_eq_nil.mp happ.symm with ⟨rfl, rfl⟩
      exact absurd rfl hsuf
  | cons r rest ih =>
      intro c hps hcnt
      obtain ⟨oc, io⟩ := r
      have hspec := coordSettle_spec c oc io
      by_cases hrest : rest = []
      · subst hrest
        have hone : c.processingCount - 1 = 0 := by
          rw [hcnt]; simp
        have hfin := hspec.2.1 ⟨hps, hone⟩
        refine ⟨fun _ => ?_, ?_⟩
        · simpa [coordSettleList] using hfin
        · intro pre suf happ hsuf
          cases pre with
          | nil => simp [coordSettleList]
          | cons p pre' =>
              obtain ⟨-, htl⟩ := List.cons.injEq .. |>.mp happ
              rcases List.append_eq_nil.mp htl.symm with ⟨rfl, rfl⟩
              exact absurd rfl hsuf
      · have hne : ¬ (c.pendingStop = true ∧ c.processingCount - 1 = 0) := by
          rintro ⟨-, hzero⟩
          rw [hcnt] at hzero
          have hlen : 0 < rest.length := List.length_pos.mpr hrest
          simp only [List.length_cons] at hzero
          omega
        have h3 := hspec.2.2 hne
        have ihcnt : (coordSettle c oc io).processingCount = (rest.length : Int) := by
          rw [hspec.1, hcnt]
          simp only [List.length_cons]
          push_cast
          omega
        have ih' := ih (coordSettle c oc io) (h3.2.1.trans hps) ihcnt
        refine ⟨fun _ => ?_, ?_⟩
        · have hrun := ih'.1 hrest
          refine ⟨?_, ?_⟩
          · show (coordSettleList (coordSettle c oc io) rest).finalizeCount = _
            rw [hrun.1, h3.1]
          · show (coordSettleList (coordSettle c oc io) rest).pendingStop = false
            exact hrun.2
        · intro pre suf happ hsuf
          cases pre with
          | nil => simp [coordSettleList]
          | cons p pre' =>
              obtain ⟨hp, htl⟩ := List.cons.injEq .. |>.mp happ
              subst hp
              have := ih'.2 pre' suf htl hsuf
              show (coordSettleList (coordSettle c oc io) pre').finalizeCount = _
              rw [this, h3.1]

/-- C2: a stop requested while recording with a positive pending counter
immediately shows Processing, sets the deferred-stop flag, stops the recorder
and runs no finalize; from that state, settling all outstanding calls (each
with success or failure) runs finalize exactly once, at the last settlement
and on no proper prefix, clearing the flag in the same step; and a repeated
stop trigger (the recorder flag already cleared) never runs finalize. -/
theorem c2_deferred_stop :
    (∀ (c : Coord) (io so : Bool), c.isRecording = true → 0 < c.processingCount →
      (coordToggle c io so).recordingState = RecState.processing ∧
      (coordToggle c io so).pendingStop = true ∧
      (coordToggle c io so).finalizeCount = c.finalizeCount ∧
      (coordToggle c io so).isRecording = false ∧
      (coordToggle c io so).processingCount = c.processingCount) ∧
    (∀ (c : Coord) (rs : List (SettleOutcome × Bool)), c.pendingStop = true →
      c.processingCount = rs.length → rs ≠ [] →
      ((coordSettleList c rs).finalizeCount = c.finalizeCount + 1 ∧
       (coordSettleList c rs).pendingStop = false) ∧
      (∀ pre suf, rs = pre ++ suf → suf ≠ [] →
        (coordSettleList c pre).finalizeCount = c.finalizeCount)) ∧
    (∀ (c : Coord) (io so : Bool), c.isRecording = false →
      (coordToggle c io so).finalizeCount = c.finalizeCount) := by
  refine ⟨?_, ?_, ?_⟩
  · intro c io so hrec hcnt
    unfold coordToggle
    rw [if_pos hrec]
    dsimp only
    rw [if_pos hcnt]
    exact ⟨rfl, rfl, rfl, rfl, rfl⟩
  · intro c rs hps hcnt hne
    exact ⟨(coordSettleList_deferred rs c hps hcnt).1 hne,
      (coordSettleList_deferred rs c hps hcnt).2⟩
  · intro c io so hrec
    unfold coordToggle
    rw [if_neg (by simp [hrec])]
    split_ifs <;> rfl

/-- C2 (witness): a stop at counter = 2 shows Processing at once, and the two
outstanding settlements (one success, one failure) produce exactly one
finalize. -/
theorem c2_witness :
    (coordToggle
        { recordingState := RecState.recording, transcript := "hi",
          isRecording := true, pendingStop := false, processingCount := 2,
          finalizeCount := 0 } true true).recordingState = RecState.processing ∧
    (coordSettleList
        (coordToggle
          { recordingState := RecState.recording, transcript := "hi",
            isRecording := true, pendingStop := false, processingCount := 2,
            finalizeCount := 0 } true true)
        [(SettleOutcome.ok "a", true),
          (SettleOutcome.errorResult, true)]).finalizeCount = 1 := by
  constructor
  · exact (c2_deferred_stop.1
      { recordingState := RecState.recording, transcript := "hi",
        isRecording := true, pendingStop := false, processingCount := 2,
        finalizeCount := 0 } true true rfl (by decide)).1
  · have h := ((c2_deferred_stop.2.1
      (coordToggle
        { recordingState := RecState.recording, transcript := "hi",
          isRecording := true, pendingStop := false, processingCount := 2,
          finalizeCount := 0 } true true)
      [(SettleOutcome.ok "a", true), (SettleOutcome.errorResult, true)]
      (by decide) (by decide) (by decide)).1).1
    rw [h]
    decide

/-- C9: a transcription call that settles with an error result or a thrown
exception appends nothing to the transcript, still decrements the pending
counter, and — when no deferred finalize is due — leaves the finalize count
untouched with the state back at recording, so the session continues. -/
theorem c9_failed_call :
    ∀ (c : Coord) (oc : SettleOutcome) (io : Bool),
      oc = SettleOutcome.errorResult ∨ oc = SettleOutcome.exn →
      (coordSettle c oc io).processingCount = c.processingCount - 1 ∧
      ((coordSettle c oc io).transcript = c.transcript ∨
        (coordSettle c oc io).transcript = "") ∧
      (¬(c.pendingStop = true ∧ c.processingCount - 1 = 0) →
        (coordSettle c oc io).transcript = c.transcript ∧
        (coordSettle c oc io).recordingState = RecState.recording ∧
        (coordSettle c oc io).finalizeCount = c.finalizeCount) := by
  intro c oc io hoc
  rcases hoc with rfl | rfl <;>
    (unfold coordSettle coordFinalize; dsimp only; split_ifs <;> simp_all)

/-- C9 (witness): a failed settlement at counter = 2 leaves the transcript
unchanged and decrements the counter to 1. -/
theorem c9_witness :
    (coordSettle
        { recordingState := RecState.processing, transcript := "hi",
          isRecording := true, pendingStop := false, processingCount := 2,
          finalizeCount := 0 } SettleOutcome.errorResult true).transcript = "hi" ∧
    (coordSettle
        { recordingState := RecState.processing, transcript := "hi",
          isRecording := true, pendingStop := false, processingCount := 2,
          finalizeCount := 0 } SettleOutcome.errorResult true).processingCount = 1 :=
  ⟨((c9_failed_call
      { recordingState := RecState.processing, transcript := "hi",
        isRecording := true, pendingStop := false, processingCount := 2,
        finalizeCount := 0 } SettleOutcome.errorResult true (Or.inl rfl)).2.2
      (by decide)).1,
   ((c9_failed_call
      { recordingState := RecState.processing, transcript := "hi",
        isRecording := true, pendingStop := false, processingCount := 2,
        finalizeCount := 0 } SettleOutcome.errorResult true (Or.inl rfl)).1).trans
     (by decide)⟩
